import Mathlib

/-!
Shallow embedding of the job-matching core of the RAG_GEMINI_RESUME repository:
the `JobMatcher` class of `job_matcher.py` together with the parts of
`cv_schema.py` it uses (`CVData`, `Experience.get_duration_years`,
`CVData.get_total_experience_years`, `MatchResult`).

Modelling conventions:
* Python strings are `List Char`; `str.lower` is the character-wise
  `Char.toLower` (correct on the ASCII vocabularies the matcher uses).
* Python float arithmetic on scores is modelled as exact rational
  arithmetic over `ℚ`.
* The sentence-transformer cosine similarity of `_calculate_skill_match` is an
  external service, modelled as an opaque parameter
  `sim : List Char → List Char → ℚ`.
* `datetime.now().year` (used by `Experience.get_duration_years` for
  end dates "present"/"current") is a parameter `nowYear : Int`.
* CPython iterates a `set` in an unspecified, hash-randomised order; the
  conversion `list(required_skills)` in `_extract_job_requirements` is
  modelled by applying a parameter `setOrder` to the vocabulary-order
  enumeration of the extracted skill set.
* `list.sort(key=lambda x: x.overall_score, reverse=True)` is a stable
  descending sort; it is modelled by the insertion sort `isortDesc`, which is
  extensionally equal to every stable descending sort on the same key.
* `find_matches` wraps the per-candidate work in `try/except`; in this
  embedding candidate records are already structured (`CVData`), the
  per-candidate computation is total, and no candidate is ever skipped.
* `int(...)` underscore separators (`int("1_0")`) are not modelled.
-/

namespace RagResume

/-! ## String model -/

/-- The whitespace class of Python's `str.split()` and `\s` (ASCII part). -/
def isSpaceC (c : Char) : Bool :=
  c = ' ' || c = '\t' || c = '\n' || c = '\r' || c = '\x0b' || c = '\x0c'

/-- Python `str.lower()` (character-wise, ASCII). -/
def toLowerStr (s : List Char) : List Char := s.map Char.toLower

def startsWithL : List Char → List Char → Bool
  | [], _ => true
  | _ :: _, [] => false
  | a :: as, b :: bs => a = b && startsWithL as bs

/-- Python `needle in haystack` on strings: contiguous substring test. -/
def substrOf (needle : List Char) : List Char → Bool
  | [] => needle.isEmpty
  | c :: cs => startsWithL needle (c :: cs) || substrOf needle cs

def pySplitAux : List Char → List Char → List (List Char)
  | [], acc => if acc.isEmpty then [] else [acc.reverse]
  | c :: cs, acc =>
    if isSpaceC c then
      (if acc.isEmpty then pySplitAux cs [] else acc.reverse :: pySplitAux cs [])
    else pySplitAux cs (c :: acc)

/-- Python `str.split()` with no argument: maximal non-whitespace runs. -/
def pySplit (s : List Char) : List (List Char) := pySplitAux s []

def natOfDigits (ds : List Char) : Nat :=
  ds.foldl (fun n c => 10 * n + (c.toNat - 48)) 0

def stripWS (s : List Char) : List Char :=
  ((s.dropWhile isSpaceC).reverse.dropWhile isSpaceC).reverse

/-- Python `int(str)`: optional surrounding whitespace, optional sign, digits. -/
def pyInt (s : List Char) : Option Int :=
  match stripWS s with
  | [] => none
  | c :: cs =>
    if c = '-' then
      (if !cs.isEmpty && cs.all Char.isDigit then some (-(natOfDigits cs : Int)) else none)
    else if c = '+' then
      (if !cs.isEmpty && cs.all Char.isDigit then some ((natOfDigits cs : Int)) else none)
    else
      (if (c :: cs).all Char.isDigit then some ((natOfDigits (c :: cs) : Int)) else none)

/-! ## The three `re.search` patterns of `_extract_job_requirements`

The matchers below are hand-compiled from the three regular expressions

  `(\d+)\+?\s*years?\s*(?:of\s*)?experience`
  `(\d+)\+?\s*years?\s*(?:of\s*)?(?:relevant\s*)?experience`
  `minimum\s*(\d+)\s*years?`

`matchP?At` attempts an anchored match at the head of its argument and returns
the number captured by group 1; `reSearchNum` scans positions left to right,
which is exactly `re.search`'s leftmost-match rule.  Greedy `\d+`, `\+?`,
`s?` and `\s*` never need to give characters back here (the character class of
each quantified piece is disjoint from every first character the remainder of
the pattern can start with), so only the optional literal groups `(?:of\s*)?`
and `(?:relevant\s*)?` branch. -/

def skipSpaces (s : List Char) : List Char := s.dropWhile isSpaceC

def matchLit : List Char → List Char → Option (List Char)
  | [], s => some s
  | _ :: _, [] => none
  | a :: as, b :: bs => if a = b then matchLit as bs else none

def digits1 (s : List Char) : Option (List Char × List Char) :=
  let ds := s.takeWhile Char.isDigit
  if ds.isEmpty then none else some (ds, s.dropWhile Char.isDigit)

def optChar (c : Char) : List Char → List Char
  | [] => []
  | d :: ds => if d = c then ds else d :: ds

/-- Both continuations of an optional group `(?:w\s*)?`, greedy branch first. -/
def optTail (w : List Char) (r : List Char) : List (List Char) :=
  match matchLit w r with
  | some r2 => [skipSpaces r2, r]
  | none => [r]

def matchP1At (s : List Char) : Option Nat :=
  match digits1 s with
  | none => none
  | some (ds, r1) =>
    match matchLit ("year").toList (skipSpaces (optChar '+' r1)) with
    | none => none
    | some r4 =>
      let r6 := skipSpaces (optChar 's' r4)
      if (optTail ("of").toList r6).any (fun t => (matchLit ("experience").toList t).isSome)
      then some (natOfDigits ds) else none

def matchP2At (s : List Char) : Option Nat :=
  match digits1 s with
  | none => none
  | some (ds, r1) =>
    match matchLit ("year").toList (skipSpaces (optChar '+' r1)) with
    | none => none
    | some r4 =>
      let r6 := skipSpaces (optChar 's' r4)
      if (optTail ("of").toList r6).any (fun ta =>
           (optTail ("relevant").toList ta).any (fun tb =>
             (matchLit ("experience").toList tb).isSome))
      then some (natOfDigits ds) else none

def matchP3At (s : List Char) : Option Nat :=
  match matchLit ("minimum").toList s with
  | none => none
  | some r1 =>
    match digits1 (skipSpaces r1) with
    | none => none
    | some (ds, r2) =>
      match matchLit ("year").toList (skipSpaces r2) with
      | none => none
      | some _ => some (natOfDigits ds)

/-- `re.search`: leftmost anchored match, scanning positions left to right. -/
def reSearchNum (f : List Char → Option Nat) : List Char → Option Nat
  | [] => f []
  | c :: cs =>
    match f (c :: cs) with
    | some n => some n
    | none => reSearchNum f cs

/-- The captured numbers of the anchored matches at every position of the
text, in position order (used to state what "all occurrences" would give). -/
def allMatchNums (f : List Char → Option Nat) : List Char → List Nat
  | [] => (f []).toList
  | c :: cs => (f (c :: cs)).toList ++ allMatchNums f cs

/-! ## Data model (`cv_schema.py`, the fields the matcher reads) -/

structure PersonalInfo where
  name : List Char
deriving DecidableEq

structure Skill where
  name : List Char
deriving DecidableEq

structure Experience where
  job_title : List Char
  company : List Char
  start_date : List Char
  end_date : List Char
  description : List Char
deriving DecidableEq

structure Education where
  degree : List Char
deriving DecidableEq

structure CVData where
  filename : List Char
  personal_info : PersonalInfo
  skills : List Skill
  experience : List Experience
  education : List Education
deriving DecidableEq

/-- `Experience.get_duration_years`.  `split('/')[0]` (respectively the whole
string when it has no slash) is the prefix before the first `/`, i.e.
`takeWhile (· ≠ '/')`; a parse failure of either date yields 0 (the
`except` branch); `max(0, end_year - start_year)`. -/
def get_duration_years (nowYear : Int) (e : Experience) : Int :=
  match pyInt (e.start_date.takeWhile (fun c => decide (c ≠ '/'))) with
  | none => 0
  | some sy =>
    if toLowerStr e.end_date = ("present").toList ∨ toLowerStr e.end_date = ("current").toList then
      max 0 (nowYear - sy)
    else
      match pyInt (e.end_date.takeWhile (fun c => decide (c ≠ '/'))) with
      | none => 0
      | some ey => max 0 (ey - sy)

/-- `CVData.get_total_experience_years`. -/
def totalExperienceYears (nowYear : Int) (cv : CVData) : Int :=
  (cv.experience.map (get_duration_years nowYear)).sum

/-! ## `JobMatcher.__init__`: vocabularies and weights -/

def skill_categories : List (List Char × List (List Char)) :=
  [(("programming_languages").toList,
    ["python".toList, "java".toList, "javascript".toList, "c++".toList,
     "c#".toList, "php".toList, "ruby".toList, "go".toList]),
   (("frameworks").toList,
    ["react".toList, "angular".toList, "vue".toList, "django".toList,
     "flask".toList, "spring".toList, "node.js".toList]),
   (("databases").toList,
    ["mysql".toList, "postgresql".toList, "mongodb".toList, "redis".toList,
     "elasticsearch".toList]),
   (("cloud_technologies").toList,
    ["aws".toList, "azure".toList, "gcp".toList, "docker".toList,
     "kubernetes".toList]),
   (("data_science").toList,
    ["machine learning".toList, "deep learning".toList, "data science".toList,
     "tensorflow".toList, "pytorch".toList]),
   (("tools").toList,
    ["git".toList, "jenkins".toList, "jira".toList, "confluence".toList])]

/-- All vocabulary skills in the iteration order of
`self.skill_categories.items()` (dict insertion order). -/
def allVocabSkills : List (List Char) := (skill_categories.map (fun p => p.2)).flatten

def education_keywords : List (List Char) :=
  ["bachelor".toList, "master".toList, "phd".toList, "degree".toList,
   "university".toList, "college".toList]

def senior_keywords : List (List Char) :=
  ["senior".toList, "lead".toList, "principal".toList, "architect".toList,
   "manager".toList]

structure Weights where
  skills : ℚ
  experience : ℚ
  education : ℚ

/-- `self.weights = {'skills': 0.5, 'experience': 0.3, 'education': 0.2}`. -/
def weights : Weights := ⟨0.5, 0.3, 0.2⟩

/-! ## `_extract_job_requirements` -/

structure JobRequirements where
  required_skills : List (List Char)
  required_experience_years : Int
  requires_degree : Bool
  is_senior_role : Bool
  job_description_text : List Char
deriving DecidableEq

/-- The experience-years loop: `required_experience_years = 0`, then for each
pattern in order, `required_experience_years = max(required_experience_years,
int(match.group(1)))` when `re.search` finds a match. -/
def extractYears (jdl : List Char) : Int :=
  let r1 : Int :=
    match reSearchNum matchP1At jdl with
    | some n => max 0 (n : Int)
    | none => 0
  let r2 : Int :=
    match reSearchNum matchP2At jdl with
    | some n => max r1 (n : Int)
    | none => r1
  match reSearchNum matchP3At jdl with
  | some n => max r2 (n : Int)
  | none => r2

/-- `_extract_job_requirements`.  The skill set is collected in vocabulary
(insertion) order; `list(required_skills)` enumerates the CPython set in an
unspecified hash-dependent order, modelled by `setOrder`. -/
def extractJobRequirements (setOrder : List (List Char) → List (List Char))
    (jd : List Char) : JobRequirements :=
  let jdl := toLowerStr jd
  { required_skills := setOrder (allVocabSkills.filter (fun sk => substrOf sk jdl))
    required_experience_years := extractYears jdl
    requires_degree := education_keywords.any (fun k => substrOf k jdl)
    is_senior_role := senior_keywords.any (fun k => substrOf k jdl)
    job_description_text := jd }

/-! ## `_calculate_skill_match` -/

/-- `[skill.name.lower() for skill in cv_data.skills]`. -/
def candSkillsLower (cv : CVData) : List (List Char) :=
  cv.skills.map (fun s => toLowerStr s.name)

/-- The inner loop of the semantic pass: the first candidate skill that is not
already matched and whose similarity with `r` exceeds 0.7 (`break` after the
first append). -/
def findSemantic (sim : List Char → List Char → ℚ) (r : List Char)
    (matched : List (List Char)) : List (List Char) → Option (List Char)
  | [] => none
  | c :: cs =>
    if c ∉ matched then
      (if (7 : ℚ)/10 < sim r c then some c else findSemantic sim r matched cs)
    else findSemantic sim r matched cs

/-- The outer loop of the semantic pass over the required skills, threading the
growing `matched_skills` list. -/
def semanticLoop (sim : List Char → List Char → ℚ) (cands : List (List Char)) :
    List (List Char) → List (List Char) → List (List Char)
  | [], matched => matched
  | r :: rs, matched =>
    if r ∈ matched then semanticLoop sim cands rs matched
    else
      match findSemantic sim r matched cands with
      | some c => semanticLoop sim cands rs (matched ++ [c])
      | none => semanticLoop sim cands rs matched

/-- The direct-match loop: required skills found verbatim among the
candidate's (lowercased) skills, appended in required-list order. -/
def directMatches (required cands : List (List Char)) : List (List Char) :=
  required.filter (fun r => decide (r ∈ cands))

/-- The full `matched_skills` list: direct matches, then — only when some
required skill is still unmatched (`len(matched) < len(required)`) — the
semantic pass appending candidate skill names. -/
def matchedSkillsOf (sim : List Char → List Char → ℚ)
    (required cands : List (List Char)) : List (List Char) :=
  if (directMatches required cands).length < required.length
  then semanticLoop sim cands required (directMatches required cands)
  else directMatches required cands

/-- The skill score for a non-empty required list: `len(matched)/len(required)`
with the breadth bonus `min(1.0, score * 1.1)` when the candidate lists more
skills than are required. -/
def skillScoreOf (sim : List Char → List Char → ℚ)
    (required cands : List (List Char)) : ℚ :=
  let base : ℚ := ((matchedSkillsOf sim required cands).length : ℚ) / (required.length : ℚ)
  if required.length < cands.length then min 1 (base * (11/10)) else base

/-- `_calculate_skill_match` (the re-check `if not required_skills` at lines
184-185 of the source is unreachable after the early return and is omitted). -/
def calcSkillMatch (sim : List Char → List Char → ℚ) (cv : CVData)
    (req : JobRequirements) : ℚ × List (List Char) :=
  if req.required_skills = [] then ((1 : ℚ)/2, [])
  else (skillScoreOf sim req.required_skills (candSkillsLower cv),
        matchedSkillsOf sim req.required_skills (candSkillsLower cv))

/-! ## `_calculate_experience_match` -/

/-- `f"{exp.job_title} {exp.description}".lower()`. -/
def expTextLower (e : Experience) : List Char :=
  toLowerStr (e.job_title ++ [' '] ++ e.description)

/-- The relevance counter: number of whitespace tokens of the (lowercased) job
description of length > 3 occurring as substrings of the entry text. -/
def relevanceScore (jdl : List Char) (e : Experience) : Nat :=
  (pySplit jdl).countP (fun w => decide (3 < w.length) && substrOf w (expTextLower e))

/-- The entries deemed relevant (`relevance_score > 0`), rendered as
`"<title> at <company>"` in the candidate's original entry order. -/
def relevantExperienceOf (jdl : List Char) (cv : CVData) : List (List Char) :=
  (cv.experience.filter (fun e => decide (0 < relevanceScore jdl e))).map
    (fun e => e.job_title ++ (" at ").toList ++ e.company)

/-- The experience score before the senior-role adjustment. -/
def expBaseScore (nowYear : Int) (cv : CVData) (req : JobRequirements) : ℚ :=
  let required_years := req.required_experience_years
  let candidate_years := totalExperienceYears nowYear cv
  if required_years = 0 then
    (if 0 < candidate_years then 7/10 else 3/10)
  else
    if (required_years : ℚ) ≤ (candidate_years : ℚ) then
      min 1 ((candidate_years : ℚ) / (required_years : ℚ))
    else (candidate_years : ℚ) / (required_years : ℚ)

/-- The experience score after `if is_senior_role and candidate_years < 3:
experience_score *= 0.7`. -/
def experienceScoreOf (nowYear : Int) (cv : CVData) (req : JobRequirements) : ℚ :=
  if req.is_senior_role ∧ totalExperienceYears nowYear cv < 3
  then expBaseScore nowYear cv req * (7/10)
  else expBaseScore nowYear cv req

def calcExperienceMatch (nowYear : Int) (cv : CVData) (req : JobRequirements)
    (jd : List Char) : ℚ × List (List Char) :=
  (experienceScoreOf nowYear cv req, relevantExperienceOf (toLowerStr jd) cv)

/-! ## `_calculate_education_match` -/

def degreeLevel (e : Education) : Nat :=
  let d := toLowerStr e.degree
  if substrOf ("phd").toList d || substrOf ("doctorate").toList d then 4
  else if substrOf ("master").toList d then 3
  else if substrOf ("bachelor").toList d then 2
  else 1

/-- `max(degree_levels) if degree_levels else 1`. -/
def pyMaxLevels : List Nat → Nat
  | [] => 1
  | x :: xs => xs.foldl max x

def calcEducationMatch (cv : CVData) (req : JobRequirements) : ℚ :=
  if !req.requires_degree then 7/10
  else if !cv.education.isEmpty then
    min 1 ((pyMaxLevels (cv.education.map degreeLevel) : ℚ) / 2)
  else 3/10

/-! ## `_calculate_matching_scores` -/

structure Scores where
  overall : ℚ
  skills : ℚ
  experience : ℚ
  education : ℚ
  matched_skills : List (List Char)
  relevant_experience : List (List Char)
deriving DecidableEq

def calcMatchingScores (sim : List Char → List Char → ℚ) (nowYear : Int)
    (cv : CVData) (req : JobRequirements) (jd : List Char) : Scores :=
  let sm := calcSkillMatch sim cv req
  let em := calcExperienceMatch nowYear cv req jd
  let ed := calcEducationMatch cv req
  { overall := sm.1 * weights.skills + em.1 * weights.experience + ed * weights.education
    skills := sm.1
    experience := em.1
    education := ed
    matched_skills := sm.2
    relevant_experience := em.2 }

/-! ## `_generate_explanation` -/

def joinComma (parts : List (List Char)) : List Char :=
  List.intercalate (", ").toList parts

def joinBar (parts : List (List Char)) : List Char :=
  List.intercalate (" | ").toList parts

/-- `f"{candidate_years:.1f}"` where the value is an integer number of years. -/
def fmt1f (y : Int) : List Char := (toString y).toList ++ (".0").toList

def genExplanation (nowYear : Int) (cv : CVData) (jreq : JobRequirements)
    (s : Scores) : List Char :=
  let tier : List Char :=
    if (8 : ℚ)/10 ≤ s.overall then ("🟢 Excellent match for this position.").toList
    else if (6 : ℚ)/10 ≤ s.overall then
      ("🟡 Good match with some areas for consideration.").toList
    else ("🔴 Limited match for this position.").toList
  let parts := [tier]
  let parts := parts ++
    (if !s.matched_skills.isEmpty then
      [("✅ Matching skills: ").toList ++ joinComma s.matched_skills] else [])
  let parts := parts ++
    (if s.matched_skills.length < jreq.required_skills.length then
      [("❌ Missing skills: ").toList ++
        joinComma (jreq.required_skills.filter (fun sk => decide (sk ∉ s.matched_skills)))]
     else [])
  let cy := totalExperienceYears nowYear cv
  let parts := parts ++
    (if 0 < jreq.required_experience_years then
      (if jreq.required_experience_years ≤ cy then
        [("✅ Has ").toList ++ fmt1f cy ++ (" years of experience (required: ").toList ++
          (toString jreq.required_experience_years).toList ++ (")").toList]
       else
        [("⚠️ Has ").toList ++ fmt1f cy ++ (" years of experience (required: ").toList ++
          (toString jreq.required_experience_years).toList ++ (")").toList])
     else [])
  let parts := parts ++
    (if !s.relevant_experience.isEmpty then
      [("🎯 Relevant experience: ").toList ++ joinComma (s.relevant_experience.take 2)]
     else [])
  let parts := parts ++
    (if jreq.requires_degree then
      (if !cv.education.isEmpty then
        [("🎓 Education: ").toList ++ joinComma (cv.education.map (fun e => e.degree))]
       else [("⚠️ No formal education information found").toList])
     else [])
  joinBar parts

/-! ## `find_matches` -/

structure MatchResult where
  cv_filename : List Char
  candidate_name : List Char
  overall_score : ℚ
  skill_match_score : ℚ
  experience_match_score : ℚ
  education_match_score : ℚ
  explanation : List Char
  matched_skills : List (List Char)
  relevant_experience : List (List Char)
  cv_data : CVData
deriving DecidableEq

def mkMatchResult (sim : List Char → List Char → ℚ) (nowYear : Int)
    (jreq : JobRequirements) (jd : List Char) (includeExpl : Bool)
    (cv : CVData) : MatchResult :=
  let s := calcMatchingScores sim nowYear cv jreq jd
  { cv_filename := cv.filename
    candidate_name :=
      if cv.personal_info.name = [] then ("Unknown").toList else cv.personal_info.name
    overall_score := s.overall
    skill_match_score := s.skills
    experience_match_score := s.experience
    education_match_score := s.education
    explanation := if includeExpl then genExplanation nowYear cv jreq s else []
    matched_skills := s.matched_skills
    relevant_experience := s.relevant_experience
    cv_data := cv }

/-- The per-candidate results in input order, before sorting. -/
def matchResultsFor (setOrder : List (List Char) → List (List Char))
    (sim : List Char → List Char → ℚ) (nowYear : Int) (jd : List Char)
    (cvs : List CVData) (includeExpl : Bool) : List MatchResult :=
  cvs.map (mkMatchResult sim nowYear (extractJobRequirements setOrder jd) jd includeExpl)

/-- Stable insertion step of the descending sort: a new element goes after
every already-placed element whose key is ≥ its own. -/
def insertDesc {α : Type} (key : α → ℚ) (x : α) : List α → List α
  | [] => [x]
  | y :: ys => if key y ≤ key x then x :: y :: ys else y :: insertDesc key x ys

/-- Stable descending sort, modelling
`list.sort(key=lambda x: x.overall_score, reverse=True)`. -/
def isortDesc {α : Type} (key : α → ℚ) : List α → List α
  | [] => []
  | x :: xs => insertDesc key x (isortDesc key xs)

/-- Python slice `l[:k]` for an `int` bound `k`: the first `k` elements when
`k ≥ 0`, everything but the last `|k|` elements when `k < 0`. -/
def pyTake {α : Type} (k : Int) (l : List α) : List α :=
  if 0 ≤ k then l.take k.toNat else l.take ((l.length : Int) + k).toNat

/-- `JobMatcher.find_matches`. -/
def findMatches (setOrder : List (List Char) → List (List Char))
    (sim : List Char → List Char → ℚ) (nowYear : Int) (jd : List Char)
    (cvs : List CVData) (top_k : Int) (includeExpl : Bool) : List MatchResult :=
  if cvs = [] then []
  else
    pyTake top_k
      (isortDesc (fun r => r.overall_score) (matchResultsFor setOrder sim nowYear jd cvs includeExpl))

/-! ## Auxiliary definitions used only to state claims -/

/-- Everything a `MatchResult` carries except the explanation string. -/
structure MatchResultCore where
  cv_filename : List Char
  candidate_name : List Char
  overall_score : ℚ
  skill_match_score : ℚ
  experience_match_score : ℚ
  education_match_score : ℚ
  matched_skills : List (List Char)
  relevant_experience : List (List Char)
  cv_data : CVData
deriving DecidableEq

def eraseExplanation (r : MatchResult) : MatchResultCore :=
  { cv_filename := r.cv_filename
    candidate_name := r.candidate_name
    overall_score := r.overall_score
    skill_match_score := r.skill_match_score
    experience_match_score := r.experience_match_score
    education_match_score := r.education_match_score
    matched_skills := r.matched_skills
    relevant_experience := r.relevant_experience
    cv_data := r.cv_data }

/-- The relevance criterion in the words of the specification (claim C6), for
comparison with the code's criterion: the whitespace tokenisations of the
entry's title+description and of the job description, compared
case-insensitively, share at least one token of length greater than 3. -/
def specTokenOverlap (jd : List Char) (e : Experience) : Bool :=
  (pySplit (toLowerStr jd)).any (fun w =>
    decide (3 < w.length) &&
      (pySplit (expTextLower e)).any (fun t => decide (t = w)))

/-! ## Concrete data for witnesses and counterexamples -/

/-- A similarity provider that never fires the semantic fallback. -/
def simZ : List Char → List Char → ℚ := fun _ _ => 0

/-- One possible CPython set-enumeration order (the identity on the
vocabulary-order listing). -/
def idOrder : List (List Char) → List (List Char) := fun l => l

def cvEmpty : CVData :=
  { filename := ("a.pdf").toList
    personal_info := { name := [] }
    skills := []
    experience := []
    education := [] }

/-! ## Properties of the stable descending sort -/

theorem insertDesc_perm {α : Type} (key : α → ℚ) (x : α) (l : List α) :
    List.Perm (insertDesc key x l) (x :: l) := by
  induction l with
  | nil => simp [insertDesc]
  | cons y ys ih =>
    by_cases h : key y ≤ key x
    · simp [insertDesc, h]
    · simp only [insertDesc, if_neg h]
      exact List.Perm.trans (List.Perm.cons y ih) (List.Perm.swap x y ys)

theorem isortDesc_perm {α : Type} (key : α → ℚ) (l : List α) :
    List.Perm (isortDesc key l) l := by
  induction l with
  | nil => exact List.Perm.refl []
  | cons x xs ih =>
    exact List.Perm.trans (insertDesc_perm key x (isortDesc key xs)) (List.Perm.cons x ih)

theorem insertDesc_pairwise {α : Type} (key : α → ℚ) (x : α) (l : List α)
    (h : List.Pairwise (fun a b => key b ≤ key a) l) :
    List.Pairwise (fun a b => key b ≤ key a) (insertDesc key x l) := by
  induction l with
  | nil => simp [insertDesc]
  | cons y ys ih =>
    rw [List.pairwise_cons] at h
    by_cases hxy : key y ≤ key x
    · simp only [insertDesc, if_pos hxy]
      refine List.Pairwise.cons ?_ (List.Pairwise.cons h.1 h.2)
      intro b hb
      rcases List.mem_cons.mp hb with rfl | hb
      · exact hxy
      · exact le_trans (h.1 b hb) hxy
    · simp only [insertDesc, if_neg hxy]
      refine List.Pairwise.cons ?_ (ih h.2)
      intro b hb
      rcases List.mem_cons.mp ((insertDesc_perm key x ys).mem_iff.mp hb) with rfl | hb
      · exact le_of_lt (not_le.mp hxy)
      · exact h.1 b hb

theorem isortDesc_pairwise {α : Type} (key : α → ℚ) (l : List α) :
    List.Pairwise (fun a b => key b ≤ key a) (isortDesc key l) := by
  induction l with
  | nil => simp [isortDesc]
  | cons x xs ih => exact insertDesc_pairwise key x (isortDesc key xs) ih

theorem filter_insertDesc {α : Type} (key : α → ℚ) (q : ℚ) (x : α) (l : List α) :
    (insertDesc key x l).filter (fun a => decide (key a = q))
      = if key x = q then x :: l.filter (fun a => decide (key a = q))
        else l.filter (fun a => decide (key a = q)) := by
  induction l with
  | nil => by_cases h : key x = q <;> simp [insertDesc, h]
  | cons y ys ih =>
    by_cases hxy : key y ≤ key x
    · simp only [insertDesc, if_pos hxy, List.filter_cons]
      by_cases hx : key x = q <;> by_cases hy : key y = q <;> simp [hx, hy]
    · have hlt : key x < key y := not_le.mp hxy
      simp only [insertDesc, if_neg hxy, List.filter_cons]
      by_cases hy : key y = q
      · have hx : ¬ (key x = q) := by
          intro hx
          rw [hx, hy] at hlt
          exact lt_irrefl q hlt
        simp [hx, hy, ih]
      · by_cases hx : key x = q <;> simp [hx, hy, ih]

/-- Stability of the sort: the elements with any given key value appear in the
output in exactly the order they had in the input. -/
theorem isortDesc_filter {α : Type} (key : α → ℚ) (q : ℚ) (l : List α) :
    (isortDesc key l).filter (fun a => decide (key a = q))
      = l.filter (fun a => decide (key a = q)) := by
  induction l with
  | nil => rfl
  | cons x xs ih =>
    by_cases hx : key x = q <;>
      simp [isortDesc, filter_insertDesc, hx, List.filter_cons, ih]

theorem map_insertDesc {α β : Type} (keyA : α → ℚ) (keyB : β → ℚ) (f : α → β)
    (hf : ∀ a, keyB (f a) = keyA a) (x : α) (l : List α) :
    (insertDesc keyA x l).map f = insertDesc keyB (f x) (l.map f) := by
  induction l with
  | nil => rfl
  | cons y ys ih =>
    by_cases h : keyA y ≤ keyA x
    · simp [insertDesc, h, hf]
    · simp [insertDesc, h, hf, ih]

theorem map_isortDesc {α β : Type} (keyA : α → ℚ) (keyB : β → ℚ) (f : α → β)
    (hf : ∀ a, keyB (f a) = keyA a) (l : List α) :
    (isortDesc keyA l).map f = isortDesc keyB (l.map f) := by
  induction l with
  | nil => rfl
  | cons x xs ih => simp [isortDesc, map_insertDesc keyA keyB f hf, ih]

theorem map_pyTake {α β : Type} (f : α → β) (k : Int) (l : List α) :
    (pyTake k l).map f = pyTake k (l.map f) := by
  unfold pyTake
  by_cases h : 0 ≤ k <;> simp [h, List.map_take]

/-! ## List counting helpers -/

theorem length_filter_add_not {α : Type} (p : α → Bool) (l : List α) :
    (l.filter p).length + (l.filter (fun a => !(p a))).length = l.length := by
  induction l with
  | nil => rfl
  | cons a l ih => cases h : p a <;> simp [List.filter_cons, h] <;> omega

theorem length_filter_mono {α : Type} (p q : α → Bool)
    (h : ∀ a, p a = true → q a = true) (l : List α) :
    (l.filter p).length ≤ (l.filter q).length := by
  induction l with
  | nil => exact le_refl _
  | cons a l ih =>
    by_cases hp : p a = true
    · simp [List.filter_cons, hp, h a hp]
      omega
    · cases hq : q a <;> simp [List.filter_cons, hp, hq] <;> omega

/-! ## Properties of the semantic-fallback pass -/

theorem findSemantic_some (sim : List Char → List Char → ℚ) (r : List Char)
    (matched : List (List Char)) :
    ∀ {cands c}, findSemantic sim r matched cands = some c →
      c ∈ cands ∧ c ∉ matched := by
  intro cands
  induction cands with
  | nil => intro c h; simp [findSemantic] at h
  | cons d ds ih =>
    intro c h
    by_cases hd : d ∈ matched
    · simp only [findSemantic, if_neg (not_not_intro hd)] at h
      rcases ih h with ⟨h1, h2⟩
      exact ⟨List.mem_cons_of_mem d h1, h2⟩
    · by_cases hs : (7 : ℚ)/10 < sim r d
      · simp only [findSemantic, if_pos hd, if_pos hs, Option.some.injEq] at h
        subst h
        exact ⟨List.mem_cons_self d ds, hd⟩
      · simp only [findSemantic, if_pos hd, if_neg hs] at h
        rcases ih h with ⟨h1, h2⟩
        exact ⟨List.mem_cons_of_mem d h1, h2⟩

theorem semanticLoop_split (sim : List Char → List Char → ℚ)
    (cands : List (List Char)) :
    ∀ (rs matched : List (List Char)), ∃ t,
      semanticLoop sim cands rs matched = matched ++ t
        ∧ ∀ x ∈ t, x ∈ cands ∧ x ∉ matched := by
  intro rs
  induction rs with
  | nil =>
    intro matched
    exact ⟨[], by simp [semanticLoop], by simp⟩
  | cons r rs ih =>
    intro matched
    by_cases hr : r ∈ matched
    · rcases ih matched with ⟨t, ht, hprop⟩
      exact ⟨t, by simp [semanticLoop, hr, ht], hprop⟩
    · cases hfs : findSemantic sim r matched cands with
      | none =>
        rcases ih matched with ⟨t, ht, hprop⟩
        exact ⟨t, by simp [semanticLoop, hr, hfs, ht], hprop⟩
      | some c =>
        rcases ih (matched ++ [c]) with ⟨t, ht, hprop⟩
        refine ⟨c :: t, ?_, ?_⟩
        · simp [semanticLoop, hr, hfs, ht]
        · intro x hx
          rcases List.mem_cons.mp hx with rfl | hx
          · exact findSemantic_some sim r matched hfs
          · rcases hprop x hx with ⟨h1, h2⟩
            exact ⟨h1, fun hxm => h2 (List.mem_append_left _ hxm)⟩

theorem semanticLoop_nodup (sim : List Char → List Char → ℚ)
    (cands : List (List Char)) :
    ∀ (rs matched : List (List Char)), matched.Nodup →
      (semanticLoop sim cands rs matched).Nodup := by
  intro rs
  induction rs with
  | nil => intro matched h; simpa [semanticLoop] using h
  | cons r rs ih =>
    intro matched h
    by_cases hr : r ∈ matched
    · simpa [semanticLoop, hr] using ih matched h
    · cases hfs : findSemantic sim r matched cands with
      | none => simpa [semanticLoop, hr, hfs] using ih matched h
      | some c =>
        have hc : c ∉ matched := (findSemantic_some sim r matched hfs).2
        have hnd : (matched ++ [c]).Nodup := by
          rw [List.nodup_append]
          refine ⟨h, List.nodup_singleton c, ?_⟩
          intro a ha hac
          rw [List.mem_singleton] at hac
          exact hc (hac ▸ ha)
        simpa [semanticLoop, hr, hfs] using ih (matched ++ [c]) hnd

theorem semanticLoop_length_le (sim : List Char → List Char → ℚ)
    (cands : List (List Char)) :
    ∀ (rs matched : List (List Char)),
      (semanticLoop sim cands rs matched).length
        ≤ matched.length + (rs.filter (fun r => !(decide (r ∈ matched)))).length := by
  intro rs
  induction rs with
  | nil => intro matched; simp [semanticLoop]
  | cons r rs ih =>
    intro matched
    by_cases hr : r ∈ matched
    · have h1 := ih matched
      simp only [semanticLoop, if_pos hr]
      simpa [List.filter_cons, hr] using h1
    · cases hfs : findSemantic sim r matched cands with
      | none =>
        have h1 := ih matched
        simp only [semanticLoop, if_neg hr, hfs]
        simp [List.filter_cons, hr]
        omega
      | some c =>
        have h1 := ih (matched ++ [c])
        have h2 : (rs.filter (fun a => !(decide (a ∈ matched ++ [c])))).length
            ≤ (rs.filter (fun a => !(decide (a ∈ matched)))).length := by
          apply length_filter_mono
          intro a ha
          simp only [Bool.not_eq_true', decide_eq_false_iff_not] at ha ⊢
          intro hm
          exact ha (List.mem_append_left _ hm)
        simp only [semanticLoop, if_neg hr, hfs]
        simp [List.filter_cons, hr]
        rw [List.length_append, List.length_singleton] at h1
        omega

/-! ## Bounds for the three dimension scorers -/

theorem matchedSkillsOf_length_le (sim : List Char → List Char → ℚ)
    (required cands : List (List Char)) :
    (matchedSkillsOf sim required cands).length ≤ required.length := by
  unfold matchedSkillsOf
  by_cases hlt : (directMatches required cands).length < required.length
  · simp only [if_pos hlt]
    have h1 := semanticLoop_length_le sim cands required (directMatches required cands)
    have h3 : required.filter (fun r => decide (r ∈ directMatches required cands))
        = directMatches required cands := by
      conv_rhs => rw [directMatches]
      apply List.filter_congr
      intro a ha
      rw [decide_eq_decide]
      unfold directMatches
      simp [List.mem_filter, ha]
    have h4 := length_filter_add_not
      (fun r => decide (r ∈ directMatches required cands)) required
    rw [h3] at h4
    omega
  · simp only [if_neg hlt]
    exact List.length_filter_le _ _

theorem matchedSkillsOf_nodup (sim : List Char → List Char → ℚ)
    (required cands : List (List Char)) (h : required.Nodup) :
    (matchedSkillsOf sim required cands).Nodup := by
  unfold matchedSkillsOf
  have hd : (directMatches required cands).Nodup := h.filter _
  by_cases hlt : (directMatches required cands).length < required.length
  · simp only [if_pos hlt]
    exact semanticLoop_nodup sim cands required _ hd
  · simp only [if_neg hlt]
    exact hd

theorem skillScoreOf_bounds (sim : List Char → List Char → ℚ)
    (required cands : List (List Char)) (h : required ≠ []) :
    0 ≤ skillScoreOf sim required cands ∧ skillScoreOf sim required cands ≤ 1 := by
  have hpos : (0 : ℚ) < (required.length : ℚ) := by
    exact_mod_cast List.length_pos.mpr h
  have hbase0 : 0 ≤ ((matchedSkillsOf sim required cands).length : ℚ) / (required.length : ℚ) :=
    div_nonneg (Nat.cast_nonneg _) (Nat.cast_nonneg _)
  have hbase1 : ((matchedSkillsOf sim required cands).length : ℚ) / (required.length : ℚ) ≤ 1 := by
    rw [div_le_one hpos]
    exact_mod_cast matchedSkillsOf_length_le sim required cands
  unfold skillScoreOf
  by_cases hc : required.length < cands.length
  · simp only [if_pos hc]
    constructor
    · exact le_min (by norm_num) (mul_nonneg hbase0 (by norm_num))
    · exact min_le_left _ _
  · simp only [if_neg hc]
    exact ⟨hbase0, hbase1⟩

theorem get_duration_years_nonneg (nowYear : Int) (e : Experience) :
    0 ≤ get_duration_years nowYear e := by
  unfold get_duration_years
  cases h1 : pyInt (e.start_date.takeWhile (fun c => decide (c ≠ '/'))) with
  | none => exact le_refl 0
  | some sy =>
    by_cases h2 : toLowerStr e.end_date = ("present").toList
        ∨ toLowerStr e.end_date = ("current").toList
    · simp only [if_pos h2]
      exact le_max_left 0 _
    · simp only [if_neg h2]
      cases h3 : pyInt (e.end_date.takeWhile (fun c => decide (c ≠ '/'))) with
      | none => exact le_refl 0
      | some ey => exact le_max_left 0 _

theorem totalExperienceYears_nonneg (nowYear : Int) (cv : CVData) :
    0 ≤ totalExperienceYears nowYear cv := by
  unfold totalExperienceYears
  apply List.sum_nonneg
  intro x hx
  rcases List.mem_map.mp hx with ⟨e, _, rfl⟩
  exact get_duration_years_nonneg nowYear e

theorem expBaseScore_bounds (nowYear : Int) (cv : CVData) (req : JobRequirements)
    (hyr : 0 ≤ req.required_experience_years) :
    0 ≤ expBaseScore nowYear cv req ∧ expBaseScore nowYear cv req ≤ 1 := by
  have hcy : 0 ≤ totalExperienceYears nowYear cv := totalExperienceYears_nonneg nowYear cv
  have hcyQ : (0 : ℚ) ≤ (totalExperienceYears nowYear cv : ℚ) := by exact_mod_cast hcy
  unfold expBaseScore
  by_cases h0 : req.required_experience_years = 0
  · simp only [if_pos h0]
    by_cases hp : 0 < totalExperienceYears nowYear cv <;> simp [hp] <;> norm_num
  · have hposZ : 0 < req.required_experience_years := lt_of_le_of_ne hyr (Ne.symm h0)
    have hpos : (0 : ℚ) < (req.required_experience_years : ℚ) := by exact_mod_cast hposZ
    simp only [if_neg h0]
    by_cases hle : (req.required_experience_years : ℚ) ≤ (totalExperienceYears nowYear cv : ℚ)
    · simp only [if_pos hle]
      exact ⟨le_min (by norm_num) (div_nonneg hcyQ (le_of_lt hpos)), min_le_left _ _⟩
    · simp only [if_neg hle]
      refine ⟨div_nonneg hcyQ (le_of_lt hpos), ?_⟩
      rw [div_le_one hpos]
      exact le_of_lt (not_le.mp hle)

theorem experienceScoreOf_bounds (nowYear : Int) (cv : CVData) (req : JobRequirements)
    (hyr : 0 ≤ req.required_experience_years) :
    0 ≤ experienceScoreOf nowYear cv req ∧ experienceScoreOf nowYear cv req ≤ 1 := by
  rcases expBaseScore_bounds nowYear cv req hyr with ⟨hb0, hb1⟩
  unfold experienceScoreOf
  by_cases hs : req.is_senior_role ∧ totalExperienceYears nowYear cv < 3
  · simp only [if_pos hs]
    constructor
    · exact mul_nonneg hb0 (by norm_num)
    · calc expBaseScore nowYear cv req * (7/10) ≤ 1 * (7/10) := by
            exact mul_le_mul_of_nonneg_right hb1 (by norm_num)
        _ ≤ 1 := by norm_num
  · simp only [if_neg hs]
    exact ⟨hb0, hb1⟩

theorem calcEducationMatch_bounds (cv : CVData) (req : JobRequirements) :
    0 ≤ calcEducationMatch cv req ∧ calcEducationMatch cv req ≤ 1 := by
  unfold calcEducationMatch
  split_ifs
  · norm_num
  · constructor
    · exact le_min (by norm_num) (div_nonneg (Nat.cast_nonneg _) (by norm_num))
    · exact min_le_left _ _
  · norm_num

/-! ## `re.search` returns the leftmost of all anchored matches -/

theorem reSearchNum_eq_head (f : List Char → Option Nat) (s : List Char) :
    reSearchNum f s = (allMatchNums f s).head? := by
  induction s with
  | nil => cases h : f [] <;> simp [reSearchNum, allMatchNums, h]
  | cons c cs ih => cases h : f (c :: cs) <;> simp [reSearchNum, allMatchNums, h, ih]

/-- The number captured by the first (leftmost) anchored match of a pattern,
0 when the pattern does not match anywhere. -/
def firstNum (f : List Char → Option Nat) (jdl : List Char) : Int :=
  match (allMatchNums f jdl).head? with
  | some n => (n : Int)
  | none => 0

/-! ## Tokens of `str.split()` are substrings of the original string -/

theorem startsWithL_self_append (t r : List Char) : startsWithL t (t ++ r) = true := by
  induction t with
  | nil => rfl
  | cons a as ih => simp [startsWithL, ih]

theorem substrOf_head (t r : List Char) : substrOf t (t ++ r) = true := by
  cases t with
  | nil =>
    induction r with
    | nil => rfl
    | cons c cs ih => simp [substrOf, startsWithL]
  | cons a as =>
    show substrOf (a :: as) (a :: (as ++ r)) = true
    simp only [substrOf, Bool.or_eq_true]
    left
    simpa using startsWithL_self_append (a :: as) r

theorem substrOf_cons (t s : List Char) (c : Char) (h : substrOf t s = true) :
    substrOf t (c :: s) = true := by
  simp [substrOf, h]

theorem substrOf_append_left (t s : List Char) (h : substrOf t s = true) :
    ∀ l : List Char, substrOf t (l ++ s) = true := by
  intro l
  induction l with
  | nil => simpa using h
  | cons c cs ih => simpa using substrOf_cons t (cs ++ s) c ih

theorem pySplitAux_substr :
    ∀ (s acc t : List Char), t ∈ pySplitAux s acc →
      substrOf t (acc.reverse ++ s) = true := by
  intro s
  induction s with
  | nil =>
    intro acc t h
    by_cases hacc : acc.isEmpty
    · simp [pySplitAux, hacc] at h
    · simp [pySplitAux, hacc] at h
      subst h
      simpa using substrOf_head acc.reverse []
  | cons c cs ih =>
    intro acc t h
    by_cases hsp : isSpaceC c = true
    · by_cases hacc : acc.isEmpty
      · simp [pySplitAux, hsp, hacc] at h
        have hcs := ih [] t h
        have hnil : acc = [] := by
          cases acc with
          | nil => rfl
          | cons a as => simp [List.isEmpty] at hacc
        subst hnil
        simpa using substrOf_cons t cs c (by simpa using hcs)
      · simp [pySplitAux, hsp, hacc] at h
        rcases h with rfl | h
        · exact substrOf_head _ (c :: cs)
        · have hcs := ih [] t h
          exact substrOf_append_left t (c :: cs)
            (substrOf_cons t cs c (by simpa using hcs)) acc.reverse
    · simp [pySplitAux, hsp] at h
      have := ih (c :: acc) t h
      rw [List.reverse_cons, List.append_assoc] at this
      simpa using this

theorem token_substrOf (s t : List Char) (h : t ∈ pySplit s) : substrOf t s = true := by
  have := pySplitAux_substr s [] t h
  simpa using this

/-! ## Further concrete data for witnesses and counterexamples -/

def jd3 : List Char := ("5 years of experience and 10 years of experience").toList

def cv4 : CVData :=
  { filename := ("b.pdf").toList
    personal_info := { name := ("Bob").toList }
    skills := []
    experience := [{ job_title := ("dev").toList, company := ("co").toList,
                     start_date := ("2020").toList, end_date := ("2021").toList,
                     description := [] }]
    education := [] }

def req4 : JobRequirements :=
  { required_skills := []
    required_experience_years := 0
    requires_degree := false
    is_senior_role := true
    job_description_text := [] }

def cv5 : CVData :=
  { filename := ("c.pdf").toList
    personal_info := { name := [] }
    skills := [{ name := ("java").toList }, { name := ("python").toList }]
    experience := []
    education := [] }

def req5 : JobRequirements :=
  { required_skills := ["java".toList, "python".toList]
    required_experience_years := 0
    requires_degree := false
    is_senior_role := false
    job_description_text := [] }

def exp6 : Experience :=
  { job_title := ("Developer").toList
    company := ("Acme").toList
    start_date := ("2020").toList
    end_date := ("2021").toList
    description := [] }

def cv6 : CVData :=
  { filename := ("d.pdf").toList
    personal_info := { name := [] }
    skills := []
    experience := [exp6]
    education := [] }

def req6 : JobRequirements :=
  { required_skills := []
    required_experience_years := 0
    requires_degree := false
    is_senior_role := false
    job_description_text := ("velop").toList }

def cvPy : CVData :=
  { filename := ("e.pdf").toList
    personal_info := { name := [] }
    skills := [{ name := ("python").toList }]
    experience := []
    education := [] }

def reqPy : JobRequirements :=
  { required_skills := [("python").toList]
    required_experience_years := 0
    requires_degree := false
    is_senior_role := false
    job_description_text := [] }

/-! ## The claims -/

/-- Claim C1: for every candidate, the overall score equals exactly
`skillScore*0.5 + experienceScore*0.3 + educationScore*0.2` with the fixed
weights 0.5/0.3/0.2, and for dimension scores (0.8, 0.6, 1.0) that linear
combination is 0.78. -/
theorem C1_overall_score_weighted (sim : List Char → List Char → ℚ) (nowYear : Int)
    (cv : CVData) (req : JobRequirements) (jd : List Char) :
    (calcMatchingScores sim nowYear cv req jd).overall
        = (calcMatchingScores sim nowYear cv req jd).skills * weights.skills
          + (calcMatchingScores sim nowYear cv req jd).experience * weights.experience
          + (calcMatchingScores sim nowYear cv req jd).education * weights.education
      ∧ weights.skills = (0.5 : ℚ)
      ∧ weights.experience = (0.3 : ℚ)
      ∧ weights.education = (0.2 : ℚ)
      ∧ (0.8 : ℚ) * weights.skills + (0.6 : ℚ) * weights.experience
          + (1.0 : ℚ) * weights.education = (0.78 : ℚ) := by
  refine ⟨rfl, rfl, rfl, rfl, by norm_num [weights]⟩

/-- Claim C2: `find_matches` equals the first `topK` entries of the stably
descending-sorted per-candidate results: the sorted list is a permutation of
the input-order results, is pairwise descending in the overall score, keeps
the input order inside every class of equal overall scores, and the output is
its `topK`-prefix (all of it when fewer results exist). -/
theorem C2_sorted_topk (setOrder : List (List Char) → List (List Char))
    (sim : List Char → List Char → ℚ) (nowYear : Int) (jd : List Char)
    (cvs : List CVData) (k : Int) (flag : Bool) (q : ℚ) (hk : 1 ≤ k) :
    findMatches setOrder sim nowYear jd cvs k flag
        = (isortDesc (fun r => r.overall_score)
            (matchResultsFor setOrder sim nowYear jd cvs flag)).take k.toNat
      ∧ List.Perm
          (isortDesc (fun r => r.overall_score)
            (matchResultsFor setOrder sim nowYear jd cvs flag))
          (matchResultsFor setOrder sim nowYear jd cvs flag)
      ∧ List.Pairwise (fun a b => b.overall_score ≤ a.overall_score)
          (isortDesc (fun r => r.overall_score)
            (matchResultsFor setOrder sim nowYear jd cvs flag))
      ∧ (isortDesc (fun r => r.overall_score)
            (matchResultsFor setOrder sim nowYear jd cvs flag)).filter
              (fun r => decide (r.overall_score = q))
          = (matchResultsFor setOrder sim nowYear jd cvs flag).filter
              (fun r => decide (r.overall_score = q))
      ∧ (findMatches setOrder sim nowYear jd cvs k flag).length
          = min k.toNat (matchResultsFor setOrder sim nowYear jd cvs flag).length := by
  have h0 : 0 ≤ k := le_trans (by norm_num) hk
  have hfm : findMatches setOrder sim nowYear jd cvs k flag
      = (isortDesc (fun r => r.overall_score)
          (matchResultsFor setOrder sim nowYear jd cvs flag)).take k.toNat := by
    unfold findMatches
    by_cases hc : cvs = []
    · simp [hc, matchResultsFor, isortDesc]
    · simp [hc, pyTake, h0]
  refine ⟨hfm, isortDesc_perm _ _, isortDesc_pairwise _ _, isortDesc_filter _ _ _, ?_⟩
  rw [hfm, List.length_take, (isortDesc_perm (fun r => r.overall_score)
    (matchResultsFor setOrder sim nowYear jd cvs flag)).length_eq]

theorem C2_sorted_topk_witness :
    findMatches idOrder simZ 0 [] [cvEmpty] 1 false
        = (isortDesc (fun r => r.overall_score)
            (matchResultsFor idOrder simZ 0 [] [cvEmpty] false)).take (1 : Int).toNat
      ∧ List.Perm
          (isortDesc (fun r => r.overall_score)
            (matchResultsFor idOrder simZ 0 [] [cvEmpty] false))
          (matchResultsFor idOrder simZ 0 [] [cvEmpty] false)
      ∧ List.Pairwise (fun a b => b.overall_score ≤ a.overall_score)
          (isortDesc (fun r => r.overall_score)
            (matchResultsFor idOrder simZ 0 [] [cvEmpty] false))
      ∧ (isortDesc (fun r => r.overall_score)
            (matchResultsFor idOrder simZ 0 [] [cvEmpty] false)).filter
              (fun r => decide (r.overall_score = 0))
          = (matchResultsFor idOrder simZ 0 [] [cvEmpty] false).filter
              (fun r => decide (r.overall_score = 0))
      ∧ (findMatches idOrder simZ 0 [] [cvEmpty] 1 false).length
          = min (1 : Int).toNat (matchResultsFor idOrder simZ 0 [] [cvEmpty] false).length :=
  C2_sorted_topk idOrder simZ 0 [] [cvEmpty] 1 false 0 (by norm_num)

/-- Claim C3 counterexample: on a job description stating two experience
thresholds, the extractor keeps the first match of each pattern, so the text
"5 years of experience and 10 years of experience" yields 5, while the maximum
over all occurrences of the first pattern is 10. -/
theorem C3_counterexample :
    (extractJobRequirements idOrder jd3).required_experience_years = 5
      ∧ (allMatchNums matchP1At (toLowerStr jd3)).foldr max 0 = 10
      ∧ ((5 : Int) ≠ 10) := by
  refine ⟨by decide, by decide, by decide⟩

/-- Claim C3 amended: `requiredExperienceYears` is the maximum, over the three
experience patterns, of the number captured by the first (leftmost) match of
each pattern in the lowercased text (0 when a pattern has no match); later
occurrences of a pattern are ignored. -/
theorem C3_amended_first_match (setOrder : List (List Char) → List (List Char))
    (jd : List Char) :
    (extractJobRequirements setOrder jd).required_experience_years
      = max (max (max 0 (firstNum matchP1At (toLowerStr jd)))
                 (firstNum matchP2At (toLowerStr jd)))
            (firstNum matchP3At (toLowerStr jd)) := by
  show extractYears (toLowerStr jd) = _
  unfold extractYears firstNum
  rw [← reSearchNum_eq_head matchP1At, ← reSearchNum_eq_head matchP2At,
    ← reSearchNum_eq_head matchP3At]
  cases reSearchNum matchP1At (toLowerStr jd) <;>
    cases reSearchNum matchP2At (toLowerStr jd) <;>
      cases reSearchNum matchP3At (toLowerStr jd) <;> simp

/-- Claim C4 counterexample: with `requiredExperienceYears = 0`, a senior role
and a candidate with 1 year of experience, the experience score is
0.7 × 0.7 = 0.49 — the senior-role adjustment runs after the 0.7/0.3
assignment, so the score is neither 0.7 nor 0.3. -/
theorem C4_counterexample :
    req4.required_experience_years = 0
      ∧ (calcExperienceMatch 2025 cv4 req4 []).1 = 49/100
      ∧ ¬((49 : ℚ)/100 = 7/10 ∨ (49 : ℚ)/100 = 3/10) := by
  have hy : totalExperienceYears 2025 cv4 = 1 := by decide
  refine ⟨by decide, ?_, by norm_num⟩
  show experienceScoreOf 2025 cv4 req4 = 49/100
  unfold experienceScoreOf expBaseScore
  rw [hy]
  norm_num [req4]

/-- Claim C4 amended: with `requiredExperienceYears = 0` the experience score
is 0.7 when the candidate's total experience years are positive and 0.3
otherwise, except that for a senior role and fewer than 3 candidate years the
senior-role adjustment further multiplies it by 0.7, giving 0.49 or 0.21. -/
theorem C4_amended_senior_penalty (nowYear : Int) (cv : CVData)
    (req : JobRequirements) (jd : List Char)
    (h0 : req.required_experience_years = 0) :
    (calcExperienceMatch nowYear cv req jd).1
      = if req.is_senior_role ∧ totalExperienceYears nowYear cv < 3 then
          (if 0 < totalExperienceYears nowYear cv then 49/100 else 21/100)
        else
          (if 0 < totalExperienceYears nowYear cv then 7/10 else 3/10) := by
  show experienceScoreOf nowYear cv req = _
  unfold experienceScoreOf expBaseScore
  rw [h0]
  simp only [if_pos rfl]
  split_ifs <;> norm_num

theorem C4_amended_senior_penalty_witness :
    req4.required_experience_years = 0
      ∧ (calcExperienceMatch 2025 cv4 req4 []).1
          = if req4.is_senior_role ∧ totalExperienceYears 2025 cv4 < 3 then
              (if 0 < totalExperienceYears 2025 cv4 then 49/100 else 21/100)
            else
              (if 0 < totalExperienceYears 2025 cv4 then 7/10 else 3/10) :=
  ⟨by decide, C4_amended_senior_penalty 2025 cv4 req4 [] (by decide)⟩

/-- Claim C5 counterexample: for a requirement set whose required-skills
sequence is not in vocabulary order (the CPython set enumeration does not
guarantee vocabulary order), the direct matches are listed in required-list
order, here ["java", "python"], while the vocabulary order of the same skills
is ["python", "java"]. -/
theorem C5_counterexample :
    (calcSkillMatch simZ cv5 req5).2 = ["java".toList, "python".toList]
      ∧ allVocabSkills.filter (fun v => decide (v ∈ ["java".toList, "python".toList]))
          = ["python".toList, "java".toList]
      ∧ (["java".toList, "python".toList] : List (List Char))
          ≠ ["python".toList, "java".toList] := by
  refine ⟨by decide, by decide, by decide⟩

/-- Claim C5 amended: the matched-skills sequence is the direct matches first,
in the order of the requirement set's required-skills sequence (not necessarily
vocabulary order), followed by the semantic-fallback matches in discovery
order; every semantic entry is a candidate skill that is not a direct match. -/
theorem C5_amended_direct_then_semantic (sim : List Char → List Char → ℚ)
    (cv : CVData) (req : JobRequirements) :
    ∃ t : List (List Char),
      (calcSkillMatch sim cv req).2
          = directMatches req.required_skills (candSkillsLower cv) ++ t
        ∧ t.all (fun x => decide (x ∈ candSkillsLower cv)
            && !(decide (x ∈ directMatches req.required_skills (candSkillsLower cv)))) = true := by
  unfold calcSkillMatch
  by_cases hreq : req.required_skills = []
  · refine ⟨[], ?_, rfl⟩
    simp [hreq, directMatches]
  · simp only [if_neg hreq]
    unfold matchedSkillsOf
    by_cases hlt : (directMatches req.required_skills (candSkillsLower cv)).length
        < req.required_skills.length
    · simp only [if_pos hlt]
      rcases semanticLoop_split sim (candSkillsLower cv) req.required_skills
          (directMatches req.required_skills (candSkillsLower cv)) with ⟨t, ht, hp⟩
      refine ⟨t, ht, ?_⟩
      rw [List.all_eq_true]
      intro x hx
      rcases hp x hx with ⟨h1, h2⟩
      simp [h1, h2]
    · simp only [if_neg hlt]
      exact ⟨[], by simp, rfl⟩

/-- Claim C6 counterexample: the job description "velop" marks the experience
entry "Developer at Acme" as relevant (the token "velop" is a substring of
"developer "), although the two whitespace tokenisations share no token. -/
theorem C6_counterexample :
    (calcExperienceMatch 2025 cv6 req6 (("velop").toList)).2
        = [("Developer at Acme").toList]
      ∧ specTokenOverlap (("velop").toList) exp6 = false := by
  refine ⟨by decide, by decide⟩

/-- Claim C6 amended: an experience entry is listed (as "<title> at
<company>", in the candidate's entry order) if and only if some whitespace
token of the lowercased job description with length > 3 occurs as a contiguous
substring of the lowercased "<title> <description>" text; moreover every entry
that shares such a whitespace token with the job description (the criterion as
originally claimed) is still listed. -/
theorem C6_amended_substring_relevance (nowYear : Int) (cv : CVData)
    (req : JobRequirements) (jd : List Char) :
    (calcExperienceMatch nowYear cv req jd).2
        = (cv.experience.filter (fun e =>
              (pySplit (toLowerStr jd)).any (fun w =>
                decide (3 < w.length) && substrOf w (expTextLower e)))).map
            (fun e => e.job_title ++ (" at ").toList ++ e.company)
      ∧ cv.experience.all (fun e => !(specTokenOverlap jd e)
          || (pySplit (toLowerStr jd)).any (fun w =>
                decide (3 < w.length) && substrOf w (expTextLower e))) = true := by
  constructor
  · show relevantExperienceOf (toLowerStr jd) cv = _
    unfold relevantExperienceOf
    apply congrArg (List.map _)
    apply List.filter_congr
    intro e he
    rw [Bool.eq_iff_iff]
    unfold relevanceScore
    simp [List.countP_pos_iff, List.any_eq_true]
  · rw [List.all_eq_true]
    intro e he
    rw [Bool.or_eq_true]
    by_cases hs : specTokenOverlap jd e = true
    · right
      unfold specTokenOverlap at hs
      rw [List.any_eq_true] at hs
      rcases hs with ⟨w, hw, hwp⟩
      rw [Bool.and_eq_true, List.any_eq_true] at hwp
      rcases hwp with ⟨hlen, tk, htk, htkw⟩
      rw [decide_eq_true_eq] at htkw
      subst htkw
      rw [List.any_eq_true]
      exact ⟨tk, hw, by
        rw [Bool.and_eq_true]
        exact ⟨hlen, token_substrOf (expTextLower e) tk htk⟩⟩
    · left
      simp [hs]

/-- Claim C7 counterexample: `find_matches` with two candidates and
`topK = -1` returns one result (Python slice `[:‑1]` drops only the last
element), so a `topK < 1` does not yield an empty result sequence. -/
theorem C7_counterexample :
    ((-1 : Int) < 1)
      ∧ (findMatches idOrder simZ 2025 [] [cvEmpty, cvEmpty] (-1) false).length = 1
      ∧ findMatches idOrder simZ 2025 [] [cvEmpty, cvEmpty] (-1) false ≠ [] := by
  have pair_sort : ∀ {α : Type} (key : α → ℚ) (a : α), isortDesc key [a, a] = [a, a] := by
    intro α key a
    simp [isortDesc, insertDesc]
  have hres : matchResultsFor idOrder simZ 2025 [] [cvEmpty, cvEmpty] false
      = [mkMatchResult simZ 2025 (extractJobRequirements idOrder []) [] false cvEmpty,
         mkMatchResult simZ 2025 (extractJobRequirements idOrder []) [] false cvEmpty] := rfl
  have hfm : findMatches idOrder simZ 2025 [] [cvEmpty, cvEmpty] (-1) false
      = [mkMatchResult simZ 2025 (extractJobRequirements idOrder []) [] false cvEmpty] := by
    unfold findMatches
    rw [if_neg (by simp : ¬([cvEmpty, cvEmpty] : List CVData) = [])]
    rw [hres, pair_sort]
    rfl
  refine ⟨by norm_num, by rw [hfm]; rfl, by rw [hfm]; simp⟩

/-- Claim C7 amended: `find_matches` never crashes (it is a total function);
an empty candidate set yields an empty result, `topK = 0` yields an empty
result, and a negative `topK` follows Python slice semantics, returning all
but the last `|topK|` results — which is non-empty whenever more than `|topK|`
candidates exist. -/
theorem C7_amended_topk_slice (setOrder : List (List Char) → List (List Char))
    (sim : List Char → List Char → ℚ) (nowYear : Int) (jd : List Char)
    (cvs : List CVData) (k : Int) (flag : Bool) (hk : k < 1) :
    findMatches setOrder sim nowYear jd [] k flag = []
      ∧ (findMatches setOrder sim nowYear jd cvs k flag).length
          = (if k = 0 then 0 else ((cvs.length : Int) + k).toNat) := by
  constructor
  · simp [findMatches]
  · by_cases hc : cvs = []
    · subst hc
      have hnil : findMatches setOrder sim nowYear jd [] k flag = [] := by
        simp [findMatches]
      rw [hnil, List.length_nil]
      by_cases h0 : k = 0
      · simp [h0]
      · simp only [if_neg h0, List.length_nil]
        omega
    · have hlen : (isortDesc (fun r => r.overall_score)
          (matchResultsFor setOrder sim nowYear jd cvs flag)).length = cvs.length := by
        rw [(isortDesc_perm (fun r => r.overall_score)
          (matchResultsFor setOrder sim nowYear jd cvs flag)).length_eq]
        simp [matchResultsFor]
      by_cases h0 : k = 0
      · subst h0
        simp [findMatches, hc, pyTake]
      · have hneg : k < 0 := by omega
        have hnle : ¬ (0 ≤ k) := by omega
        simp only [findMatches, if_neg hc, pyTake, if_neg hnle, List.length_take,
          hlen, if_neg h0]
        omega

theorem C7_amended_topk_slice_witness :
    findMatches idOrder simZ 2025 [] [] (-1) false = []
      ∧ (findMatches idOrder simZ 2025 [] [cvEmpty, cvEmpty] (-1) false).length
          = (if (-1 : Int) = 0 then 0
             else ((([cvEmpty, cvEmpty] : List CVData).length : Int) + (-1)).toNat) :=
  C7_amended_topk_slice idOrder simZ 2025 [] [cvEmpty, cvEmpty] (-1) false (by norm_num)

/-- Claim C8: for every candidate and every requirement set (whose required
experience years are, as the data model states, ≥ 0), the skill score, the
experience score after the senior-role adjustment, the education score and the
overall score all lie in [0, 1]. -/
theorem C8_scores_in_unit_interval (sim : List Char → List Char → ℚ)
    (nowYear : Int) (cv : CVData) (req : JobRequirements) (jd : List Char)
    (hyr : 0 ≤ req.required_experience_years) :
    (0 ≤ (calcMatchingScores sim nowYear cv req jd).skills
        ∧ (calcMatchingScores sim nowYear cv req jd).skills ≤ 1)
      ∧ (0 ≤ (calcMatchingScores sim nowYear cv req jd).experience
        ∧ (calcMatchingScores sim nowYear cv req jd).experience ≤ 1)
      ∧ (0 ≤ (calcMatchingScores sim nowYear cv req jd).education
        ∧ (calcMatchingScores sim nowYear cv req jd).education ≤ 1)
      ∧ (0 ≤ (calcMatchingScores sim nowYear cv req jd).overall
        ∧ (calcMatchingScores sim nowYear cv req jd).overall ≤ 1) := by
  have hs : 0 ≤ (calcSkillMatch sim cv req).1 ∧ (calcSkillMatch sim cv req).1 ≤ 1 := by
    unfold calcSkillMatch
    by_cases hreq : req.required_skills = []
    · simp only [if_pos hreq]
      norm_num
    · simp only [if_neg hreq]
      exact skillScoreOf_bounds sim req.required_skills (candSkillsLower cv) hreq
  have he := experienceScoreOf_bounds nowYear cv req hyr
  have hd := calcEducationMatch_bounds cv req
  have hsk : (calcMatchingScores sim nowYear cv req jd).skills
      = (calcSkillMatch sim cv req).1 := rfl
  have hex : (calcMatchingScores sim nowYear cv req jd).experience
      = experienceScoreOf nowYear cv req := rfl
  have hed : (calcMatchingScores sim nowYear cv req jd).education
      = calcEducationMatch cv req := rfl
  have hov : (calcMatchingScores sim nowYear cv req jd).overall
      = (calcSkillMatch sim cv req).1 * weights.skills
        + experienceScoreOf nowYear cv req * weights.experience
        + calcEducationMatch cv req * weights.education := rfl
  have hw1 : weights.skills = 1/2 := by norm_num [weights]
  have hw2 : weights.experience = 3/10 := by norm_num [weights]
  have hw3 : weights.education = 1/5 := by norm_num [weights]
  refine ⟨by rw [hsk]; exact hs, by rw [hex]; exact he, by rw [hed]; exact hd, ?_⟩
  rw [hov, hw1, hw2, hw3]
  constructor
  · linarith [hs.1, he.1, hd.1]
  · linarith [hs.2, he.2, hd.2]

theorem C8_scores_in_unit_interval_witness :
    0 ≤ req4.required_experience_years
      ∧ ((0 ≤ (calcMatchingScores simZ 2025 cv4 req4 []).skills
          ∧ (calcMatchingScores simZ 2025 cv4 req4 []).skills ≤ 1)
        ∧ (0 ≤ (calcMatchingScores simZ 2025 cv4 req4 []).experience
          ∧ (calcMatchingScores simZ 2025 cv4 req4 []).experience ≤ 1)
        ∧ (0 ≤ (calcMatchingScores simZ 2025 cv4 req4 []).education
          ∧ (calcMatchingScores simZ 2025 cv4 req4 []).education ≤ 1)
        ∧ (0 ≤ (calcMatchingScores simZ 2025 cv4 req4 []).overall
          ∧ (calcMatchingScores simZ 2025 cv4 req4 []).overall ≤ 1)) :=
  ⟨by decide, C8_scores_in_unit_interval simZ 2025 cv4 req4 [] (by decide)⟩

/-- Claim C9: `find_matches` with and without explanations produces identical
results except for the explanation string — the same candidates in the same
order with the same skill, experience, education and overall scores. -/
theorem C9_explanations_no_effect (setOrder : List (List Char) → List (List Char))
    (sim : List Char → List Char → ℚ) (nowYear : Int) (jd : List Char)
    (cvs : List CVData) (k : Int) :
    (findMatches setOrder sim nowYear jd cvs k true).map eraseExplanation
      = (findMatches setOrder sim nowYear jd cvs k false).map eraseExplanation := by
  by_cases hc : cvs = []
  · simp [findMatches, hc]
  · simp only [findMatches, if_neg hc]
    rw [map_pyTake, map_pyTake]
    rw [map_isortDesc (fun r => r.overall_score) (fun c => c.overall_score)
          eraseExplanation (fun a => rfl),
        map_isortDesc (fun r => r.overall_score) (fun c => c.overall_score)
          eraseExplanation (fun a => rfl)]
    unfold matchResultsFor
    rw [List.map_map, List.map_map]
    have hfun : eraseExplanation
          ∘ mkMatchResult sim nowYear (extractJobRequirements setOrder jd) jd true
        = eraseExplanation
          ∘ mkMatchResult sim nowYear (extractJobRequirements setOrder jd) jd false := by
      funext cv
      rfl
    rw [hfun]

/-- Claim C10: for every candidate and every requirement set with a non-empty
(and, being a set, duplicate-free) required-skills sequence, the matched-skills
list has no duplicates, its length never exceeds the number of required
skills, and the base quotient `|matchedSkills| / |requiredSkills|` never
exceeds 1 even before any clamping. -/
theorem C10_matched_nodup_bounded (sim : List Char → List Char → ℚ)
    (cv : CVData) (req : JobRequirements) (hne : req.required_skills ≠ [])
    (hnd : req.required_skills.Nodup) :
    (calcSkillMatch sim cv req).2.Nodup
      ∧ (calcSkillMatch sim cv req).2.length ≤ req.required_skills.length
      ∧ ((calcSkillMatch sim cv req).2.length : ℚ)
          / (req.required_skills.length : ℚ) ≤ 1 := by
  have h2 : (calcSkillMatch sim cv req).2
      = matchedSkillsOf sim req.required_skills (candSkillsLower cv) := by
    unfold calcSkillMatch
    rw [if_neg hne]
  rw [h2]
  refine ⟨matchedSkillsOf_nodup sim _ _ hnd, matchedSkillsOf_length_le sim _ _, ?_⟩
  have hpos : (0 : ℚ) < (req.required_skills.length : ℚ) := by
    exact_mod_cast List.length_pos.mpr hne
  rw [div_le_one hpos]
  exact_mod_cast matchedSkillsOf_length_le sim req.required_skills (candSkillsLower cv)

theorem C10_matched_nodup_bounded_witness :
    reqPy.required_skills ≠ []
      ∧ reqPy.required_skills.Nodup
      ∧ ((calcSkillMatch simZ cvPy reqPy).2.Nodup
        ∧ (calcSkillMatch simZ cvPy reqPy).2.length ≤ reqPy.required_skills.length
        ∧ ((calcSkillMatch simZ cvPy reqPy).2.length : ℚ)
            / (reqPy.required_skills.length : ℚ) ≤ 1) :=
  ⟨by decide, by decide, C10_matched_nodup_bounded simZ cvPy reqPy (by decide) (by decide)⟩

end RagResume
